import Mathlib

/-!
Verification of the HD44780 LCD driver (`lcd.go` of entrusc/go-hd44780).

The driver is embedded shallowly:
* machine bytes are `Nat` values with bitwise operations (`&&&`, `|||`, `<<<`),
  reduced `% 256` exactly where Go's `byte` arithmetic wraps;
* the I2C transport is a `Wire`: a success oracle `tr : Nat → Bool`
  (whether the n-th raw `WriteBytes` call succeeds), the number of calls made
  so far, and the log of raw transfers that were actually transmitted;
* Go runtime panics (slice index out of range) are modeled with
  `Except GoPanic`; Go `error` return values are modeled with `Option GoErr`;
* strings are lists of characters (the driver only slices by byte and the
  properties of interest concern ASCII text); durations are in nanoseconds.
-/

namespace Hd44780

inductive LcdType
  | LCD_UNKNOWN
  | LCD_16x2
  | LCD_20x4
deriving DecidableEq

/-- Command opcodes and flag constants from the head of lcd.go. -/
def CMD_Clear_Display : Nat := 0x01

def CMD_Return_Home : Nat := 0x02

def CMD_Entry_Mode : Nat := 0x04

def CMD_Display_Control : Nat := 0x08

def CMD_Cursor_Shift : Nat := 0x10

def CMD_DDRAM_Set : Nat := 0x80

def OPT_EntryLeft : Nat := 0x02

def OPT_Enable_Display : Nat := 0x04

def OPT_Enable_Cursor : Nat := 0x02

def OPT_Enable_Blink : Nat := 0x01

def OPT_Display_Move : Nat := 0x08

def OPT_Move_Right : Nat := 0x04

def OPT_Move_Left : Nat := 0x00

def PIN_BACKLIGHT : Nat := 0x08

def PIN_EN : Nat := 0x04

def PIN_RS : Nat := 0x01

/-- The `ShowOptions` bit flags (`1 << iota` starting after `SHOW_NO_OPTIONS`). -/
def SHOW_NO_OPTIONS : Nat := 0

def SHOW_LINE_1 : Nat := 2

def SHOW_LINE_2 : Nat := 4

def SHOW_LINE_3 : Nat := 8

def SHOW_LINE_4 : Nat := 16

def SHOW_ELIPSE_IF_NOT_FIT : Nat := 32

def SHOW_BLANK_PADDING : Nat := 64

/-- The `Lcd` struct (the `i2c` handle is replaced by the explicit `Wire`). -/
structure Lcd where
  backlight : Bool
  lcdType : LcdType
  writeStrobeDelay : Nat
  resetStrobeDelay : Nat
  active : Bool
  displayFunction : Nat
  displayControl : Nat
  displayMode : Nat
deriving DecidableEq

/-- `rawData`: one raw transfer, a byte value and its settle delay (ns). -/
structure RawData where
  data : Nat
  delayNs : Nat
deriving DecidableEq

/-- A Go `error` value returned by driver methods. -/
inductive GoErr
  | transportError
  | cursorPosOutOfRange (pos hi : Int)
  | cursorLineOutOfRange (line hi : Int)
deriving DecidableEq

/-- A Go runtime panic: an out-of-range index into a slice of given length. -/
inductive GoPanic
  | indexOutOfRange (idx : Int) (len : Nat)
deriving DecidableEq

/-- The byte transport: a success oracle, the count of raw `WriteBytes`
calls performed, and the log of transfers that actually succeeded. -/
structure Wire where
  tr : Nat → Bool
  idx : Nat
  log : List RawData

/-- Go's `x &^ y` on bytes: clear in `x` the bits set in `y`. -/
def bandNot (x y : Nat) : Nat := x &&& (255 ^^^ y)

/-- `writeRawDataSeq`: send each raw transfer in order, stopping at the
first transport error. -/
def writeRawDataSeq (wire : Wire) (seq : List RawData) : Wire × Option GoErr :=
  match seq with
  | [] => (wire, none)
  | item :: rest =>
    if wire.tr wire.idx then
      writeRawDataSeq { wire with idx := wire.idx + 1, log := wire.log ++ [item] } rest
    else ({ wire with idx := wire.idx + 1 }, some GoErr.transportError)

/-- The three raw transfers of `writeDataWithStrobe`: present the data with
the enable line low, strobe high for the write-strobe delay, strobe low for
the reset-strobe delay; the backlight bit is OR'd in first when it is on. -/
def strobeSeq (lcd : Lcd) (data : Nat) : List RawData :=
  let d := if lcd.backlight then data ||| PIN_BACKLIGHT else data
  [⟨d, 50 * 1000⟩,
   ⟨d ||| PIN_EN, lcd.writeStrobeDelay * 1000⟩,
   ⟨d, lcd.resetStrobeDelay * 1000⟩]

def writeDataWithStrobe (lcd : Lcd) (wire : Wire) (data : Nat) : Wire × Option GoErr :=
  writeRawDataSeq wire (strobeSeq lcd data)

/-- `writeByte`: high nibble first, then low nibble, each in the high four
bits of the transfer byte OR'd with the control pins. -/
def writeByte (lcd : Lcd) (wire : Wire) (data controlPins : Nat) : Wire × Option GoErr :=
  match writeDataWithStrobe lcd wire (data &&& 0xF0 ||| controlPins) with
  | (w1, some e) => (w1, some e)
  | (w1, none) =>
    match writeDataWithStrobe lcd w1 ((data <<< 4) &&& 0xF0 ||| controlPins) with
    | (w2, some e) => (w2, some e)
    | (w2, none) => (w2, none)

/-- `getLineRange`: lowest and highest flagged line, `-1` when none is set
(the two scan loops of the source, unrolled over the four flags). -/
def getLineRange (options : Nat) : Int × Int :=
  let startLine : Int :=
    if options &&& SHOW_LINE_1 ≠ 0 then 0
    else if options &&& SHOW_LINE_2 ≠ 0 then 1
    else if options &&& SHOW_LINE_3 ≠ 0 then 2
    else if options &&& SHOW_LINE_4 ≠ 0 then 3
    else -1
  let endLine : Int :=
    if options &&& SHOW_LINE_4 ≠ 0 then 3
    else if options &&& SHOW_LINE_3 ≠ 0 then 2
    else if options &&& SHOW_LINE_2 ≠ 0 then 1
    else if options &&& SHOW_LINE_1 ≠ 0 then 0
    else -1
  (startLine, endLine)

def getSize (lcd : Lcd) : Int × Int :=
  match lcd.lcdType with
  | LcdType.LCD_16x2 => (16, 2)
  | LcdType.LCD_20x4 => (20, 4)
  | LcdType.LCD_UNKNOWN => (-1, -1)

/-- The chunking loop of `splitText`: up to `n` iterations, each taking the
next `min w (length text)` characters; stops early when the text is
exhausted.  Returns the segments and the unconsumed remainder. -/
def chunkLoop (w : Nat) : Nat → List Char → List (List Char) × List Char
  | 0, text => ([], text)
  | n + 1, text =>
    if text.length = 0 then ([], text)
    else
      let j := min w text.length
      let r := chunkLoop w n (text.drop j)
      (text.take j :: r.1, r.2)

/-- Replace the last element of a list of segments (`lines[len(lines)-1] = …`). -/
def modifyLast (f : List Char → List Char) : List (List Char) → List (List Char)
  | [] => []
  | [s] => [f s]
  | s :: t :: ts => s :: modifyLast f (t :: ts)

/-- Body of `splitText`, parametrized by the width and line range that the
method reads from `getSize` and `getLineRange`.  The `lines[len(lines)-1]`
accesses of the ellipsis and padding branches panic on an empty segment
list, exactly as the Go slice indexing does.  (With `w ≥ 1`, every produced
segment is nonempty, matching the source's inner slice bounds.) -/
def splitTextCore (w startLine endLine : Int) (text : List Char) (options : Nat) :
    Except GoPanic (List (List Char)) :=
  if w ≠ -1 ∧ startLine ≠ -1 ∧ endLine ≠ -1 then
    let n := (endLine - startLine + 1).toNat
    let segs := (chunkLoop w.toNat n text).1
    let rest := (chunkLoop w.toNat n text).2
    if rest.length > 0 then
      if options &&& SHOW_ELIPSE_IF_NOT_FIT ≠ 0 then
        if segs.isEmpty then Except.error (GoPanic.indexOutOfRange (-1) 0)
        else Except.ok (modifyLast (fun s => s.dropLast ++ ['~']) segs)
      else Except.ok segs
    else
      if options &&& SHOW_BLANK_PADDING ≠ 0 then
        if segs.isEmpty then Except.error (GoPanic.indexOutOfRange (-1) 0)
        else Except.ok (modifyLast (fun s => s ++ List.replicate (w.toNat - s.length) ' ') segs
          ++ List.replicate (n - segs.length) (List.replicate w.toNat ' '))
      else Except.ok segs
  else if text.length > 0 then Except.ok [text]
  else Except.ok []

def splitText (lcd : Lcd) (text : List Char) (options : Nat) :
    Except GoPanic (List (List Char)) :=
  splitTextCore (getSize lcd).1 (getLineRange options).1 (getLineRange options).2 text options

/-- `SetPosition`: inactive sessions no-op; bounds are validated only when
the corresponding dimension is known (`≠ -1`); then the 4-entry
`lineOffset` table is indexed with the raw `line` (panicking outside
`[0,3]`) and the DDRAM address is transmitted. -/
def SetPosition (lcd : Lcd) (wire : Wire) (line pos : Int) :
    Except GoPanic (Wire × Option GoErr) :=
  if lcd.active = false then Except.ok (wire, none)
  else if (getSize lcd).1 ≠ -1 ∧ (pos < 0 ∨ pos > (getSize lcd).1 - 1) then
    Except.ok (wire, some (GoErr.cursorPosOutOfRange pos ((getSize lcd).1 - 1)))
  else if (getSize lcd).2 ≠ -1 ∧ (line < 0 ∨ line > (getSize lcd).2 - 1) then
    Except.ok (wire, some (GoErr.cursorLineOutOfRange line ((getSize lcd).2 - 1)))
  else if 0 ≤ line ∧ line < 4 then
    Except.ok (writeByte lcd wire
      ((CMD_DDRAM_Set + [0x00, 0x40, 0x14, 0x54].getD line.toNat 0 + (pos.emod 256).toNat) % 256) 0)
  else Except.error (GoPanic.indexOutOfRange line 4)

/-- One text line of `ShowMessage`'s inner loop: each character is sent as a
data byte (register-select pin set). -/
def writeLine (lcd : Lcd) (wire : Wire) : List Char → Wire × Option GoErr
  | [] => (wire, none)
  | c :: rest =>
    match writeByte lcd wire (c.toNat % 256) PIN_RS with
    | (w1, some e) => (w1, some e)
    | (w1, none) => writeLine lcd w1 rest

/-- The unbounded `for {}` loop of `ShowMessage`: position the cursor (when
a line range is active), read `lines[i]` (panicking when `i` is out of
range — which is how the loop exits on an empty segment list), write the
line, and stop after the last segment. -/
def showLoop (lcd : Lcd) (s e : Int) (lines : List (List Char)) (wire : Wire) (i : Nat) :
    Except GoPanic (Wire × Option GoErr) :=
  match (if s ≠ -1 ∧ e ≠ -1 then SetPosition lcd wire ((i : Int) + s) 0
         else Except.ok (wire, none)) with
  | Except.error p => Except.error p
  | Except.ok (w1, some err) => Except.ok (w1, some err)
  | Except.ok (w1, none) =>
    if hlt : i < lines.length then
      match writeLine lcd w1 (lines.get ⟨i, hlt⟩) with
      | (w2, some err) => Except.ok (w2, some err)
      | (w2, none) =>
        if i = lines.length - 1 then Except.ok (w2, none)
        else showLoop lcd s e lines w2 (i + 1)
    else Except.error (GoPanic.indexOutOfRange (i : Int) lines.length)
  termination_by lines.length - i
  decreasing_by simp_wf; omega

def ShowMessage (lcd : Lcd) (wire : Wire) (text : List Char) (options : Nat) :
    Except GoPanic (Wire × Option GoErr) :=
  if lcd.active = false then Except.ok (wire, none)
  else
    match splitText lcd text options with
    | Except.error p => Except.error p
    | Except.ok lines =>
      showLoop lcd (getLineRange options).1 (getLineRange options).2 lines wire 0

def BacklightOn (lcd : Lcd) (wire : Wire) : Lcd × Wire × Option GoErr :=
  let lcd := { lcd with backlight := true }
  let r := writeByte lcd wire 0x00 0
  (lcd, r.1, r.2)

def BacklightOff (lcd : Lcd) (wire : Wire) : Lcd × Wire × Option GoErr :=
  let lcd := { lcd with backlight := false }
  let r := writeByte lcd wire 0x00 0
  (lcd, r.1, r.2)

def Clear (lcd : Lcd) (wire : Wire) : Wire × Option GoErr :=
  writeByte lcd wire CMD_Clear_Display 0

def Home (lcd : Lcd) (wire : Wire) : Wire × Option GoErr :=
  writeByte lcd wire CMD_Return_Home 0

/-- `DisplayOn`: the stored display-control snapshot is updated first, then
the command byte built from the updated snapshot is transmitted. -/
def DisplayOn (lcd : Lcd) (wire : Wire) : Lcd × Wire × Option GoErr :=
  let lcd := { lcd with displayControl := lcd.displayControl ||| OPT_Enable_Display }
  let r := writeByte lcd wire (CMD_Display_Control ||| lcd.displayControl) 0
  (lcd, r.1, r.2)

def DisplayOff (lcd : Lcd) (wire : Wire) : Lcd × Wire × Option GoErr :=
  let lcd := { lcd with displayControl := bandNot lcd.displayControl OPT_Enable_Display }
  let r := writeByte lcd wire (CMD_Display_Control ||| lcd.displayControl) 0
  (lcd, r.1, r.2)

def BlinkOn (lcd : Lcd) (wire : Wire) : Lcd × Wire × Option GoErr :=
  let lcd := { lcd with displayControl := lcd.displayControl ||| OPT_Enable_Blink }
  let r := writeByte lcd wire (CMD_Display_Control ||| lcd.displayControl) 0
  (lcd, r.1, r.2)

def BlinkOff (lcd : Lcd) (wire : Wire) : Lcd × Wire × Option GoErr :=
  let lcd := { lcd with displayControl := bandNot lcd.displayControl OPT_Enable_Blink }
  let r := writeByte lcd wire (CMD_Display_Control ||| lcd.displayControl) 0
  (lcd, r.1, r.2)

def CursorOn (lcd : Lcd) (wire : Wire) : Lcd × Wire × Option GoErr :=
  let lcd := { lcd with displayControl := lcd.displayControl ||| OPT_Enable_Cursor }
  let r := writeByte lcd wire (CMD_Display_Control ||| lcd.displayControl) 0
  (lcd, r.1, r.2)

def CursorOff (lcd : Lcd) (wire : Wire) : Lcd × Wire × Option GoErr :=
  let lcd := { lcd with displayControl := bandNot lcd.displayControl OPT_Enable_Cursor }
  let r := writeByte lcd wire (CMD_Display_Control ||| lcd.displayControl) 0
  (lcd, r.1, r.2)

def LeftRightDisplay (lcd : Lcd) (wire : Wire) : Lcd × Wire × Option GoErr :=
  let lcd := { lcd with displayMode := lcd.displayMode ||| OPT_EntryLeft }
  let r := writeByte lcd wire (CMD_Entry_Mode ||| lcd.displayMode) 0
  (lcd, r.1, r.2)

def RightLeftDisplay (lcd : Lcd) (wire : Wire) : Lcd × Wire × Option GoErr :=
  let lcd := { lcd with displayMode := bandNot lcd.displayMode OPT_EntryLeft }
  let r := writeByte lcd wire (CMD_Entry_Mode ||| lcd.displayMode) 0
  (lcd, r.1, r.2)

def ScrollDisplayLeft (lcd : Lcd) (wire : Wire) : Wire × Option GoErr :=
  writeByte lcd wire (CMD_Cursor_Shift ||| OPT_Display_Move ||| OPT_Move_Left) 0

def ScrollDisplayRight (lcd : Lcd) (wire : Wire) : Wire × Option GoErr :=
  writeByte lcd wire (CMD_Cursor_Shift ||| OPT_Display_Move ||| OPT_Move_Right) 0

/-- The inner column loop of `Fill`. -/
def fillCols (lcd : Lcd) (wire : Wire) (ch : Nat) : Nat → Wire × Option GoErr
  | 0 => (wire, none)
  | n + 1 =>
    match writeByte lcd wire ch PIN_RS with
    | (w1, some e) => (w1, some e)
    | (w1, none) => fillCols lcd w1 ch n

/-- The line loop of `Fill`. -/
def fillLines (lcd : Lcd) (wire : Wire) (ch w h lineCount : Nat) :
    Except GoPanic (Wire × Option GoErr) :=
  if lineCount < h then
    match SetPosition lcd wire (lineCount : Int) 0 with
    | Except.error p => Except.error p
    | Except.ok (w1, some e) => Except.ok (w1, some e)
    | Except.ok (w1, none) =>
      match fillCols lcd w1 ch w with
      | (w2, some e) => Except.ok (w2, some e)
      | (w2, none) => fillLines lcd w2 ch w h (lineCount + 1)
  else Except.ok (wire, none)
  termination_by h - lineCount
  decreasing_by simp_wf; omega

/-- `Fill`: inactive sessions and unknown geometry (`w*h = 1`) no-op. -/
def Fill (lcd : Lcd) (wire : Wire) (ch : Nat) : Except GoPanic (Wire × Option GoErr) :=
  if lcd.active = false then Except.ok (wire, none)
  else
    let w := (getSize lcd).1
    let h := (getSize lcd).2
    if w * h ≤ 1 then Except.ok (wire, none)
    else fillLines lcd wire (ch % 256) w.toNat h.toNat 0

/-- `Shutdown`: mark inactive, then best-effort backlight-off, clear, home
(errors from the quiesce steps are discarded). -/
def Shutdown (lcd : Lcd) (wire : Wire) : Lcd × Wire :=
  let lcd := { lcd with active := false }
  let r1 := BacklightOff lcd wire
  let lcd := r1.1
  let r2 := Clear lcd r1.2.1
  let r3 := Home lcd r2.1
  (lcd, r3.1)

/-- A freshly initialized 16x2 session (post-`NewLcd` register state). -/
def lcd16 : Lcd :=
  { backlight := false, lcdType := LcdType.LCD_16x2, writeStrobeDelay := 200,
    resetStrobeDelay := 30, active := true, displayFunction := 0x08,
    displayControl := 0x04, displayMode := 0x02 }

def lcd20 : Lcd :=
  { lcd16 with lcdType := LcdType.LCD_20x4 }

def lcdU : Lcd :=
  { lcd16 with lcdType := LcdType.LCD_UNKNOWN }

/-- A transport on which every raw write succeeds. -/
def wireT : Wire := ⟨fun _ => true, 0, []⟩

/-- A transport on which every raw write fails. -/
def wireF : Wire := ⟨fun _ => false, 0, []⟩

/-! ### Transport lemmas -/

theorem writeRawDataSeq_allTrue (tr : Nat → Bool) (htr : ∀ n, tr n = true) :
    ∀ (seq : List RawData) (idx : Nat) (log : List RawData),
      writeRawDataSeq ⟨tr, idx, log⟩ seq = (⟨tr, idx + seq.length, log ++ seq⟩, none) := by
  intro seq
  induction seq with
  | nil => intro idx log; simp [writeRawDataSeq]
  | cons a rest ih =>
    intro idx log
    rw [writeRawDataSeq]
    simp only [htr idx, if_true]
    rw [ih (idx + 1) (log ++ [a])]
    simp only [Prod.mk.injEq, Wire.mk.injEq, List.append_assoc, List.singleton_append,
      List.length_cons, and_true, true_and]
    omega

theorem strobeSeq_length (lcd : Lcd) (x : Nat) : (strobeSeq lcd x).length = 3 := by
  simp [strobeSeq]

theorem writeByte_allTrue (lcd : Lcd) (tr : Nat → Bool) (htr : ∀ n, tr n = true)
    (idx : Nat) (log : List RawData) (data ctrl : Nat) :
    writeByte lcd ⟨tr, idx, log⟩ data ctrl =
      (⟨tr, idx + 6,
        log ++ strobeSeq lcd (data &&& 0xF0 ||| ctrl)
            ++ strobeSeq lcd ((data <<< 4) &&& 0xF0 ||| ctrl)⟩, none) := by
  simp only [writeByte, writeDataWithStrobe]
  rw [writeRawDataSeq_allTrue tr htr]
  simp only []
  rw [writeRawDataSeq_allTrue tr htr]
  simp only [Prod.mk.injEq, Wire.mk.injEq, strobeSeq_length, List.append_assoc,
    true_and, and_true]

/-! ### Layout lemmas -/

theorem chunkLoop_nil (w : Nat) : ∀ n, chunkLoop w n [] = ([], []) := by
  intro n
  cases n with
  | zero => rfl
  | succ n => rfl

theorem chunkLoop_length_le (w : Nat) : ∀ n text, (chunkLoop w n text).1.length ≤ n := by
  intro n
  induction n with
  | zero => intro text; simp [chunkLoop]
  | succ n ih =>
    intro text
    rw [chunkLoop]
    by_cases h : text.length = 0
    · simp [h]
    · simp only [h, if_false, List.length_cons]
      exact Nat.succ_le_succ (ih _)

theorem take_min_left (w : Nat) (text : List Char) :
    text.take (min w text.length) = text.take w := by
  rcases Nat.le_total w text.length with hle | hle
  · rw [Nat.min_eq_left hle]
  · rw [Nat.min_eq_right hle, List.take_of_length_le (Nat.le_refl _),
      List.take_of_length_le hle]

theorem drop_min_left (w : Nat) (text : List Char) :
    text.drop (min w text.length) = text.drop w := by
  rcases Nat.le_total w text.length with hle | hle
  · rw [Nat.min_eq_left hle]
  · rw [Nat.min_eq_right hle, List.drop_eq_nil_of_le (Nat.le_refl _),
      List.drop_eq_nil_of_le hle]

theorem chunkLoop_snd (w : Nat) :
    ∀ n text, (chunkLoop w n text).2 = text.drop (w * n) := by
  intro n
  induction n with
  | zero => intro text; simp [chunkLoop]
  | succ n ih =>
    intro text
    rw [chunkLoop]
    by_cases h : text.length = 0
    · have : text = [] := List.length_eq_zero.mp h
      subst this
      simp
    · simp only [h, if_false]
      rw [drop_min_left, ih, List.drop_drop]
      congr 1
      ring

theorem chunkLoop_fst (w : Nat) (hw : 1 ≤ w) :
    ∀ n text, (chunkLoop w n text).1 =
      ((List.range n).map fun i => (text.drop (w * i)).take w).filter fun sg => !sg.isEmpty := by
  intro n
  induction n with
  | zero => intro text; simp [chunkLoop]
  | succ n ih =>
    intro text
    rw [chunkLoop]
    by_cases h : text.length = 0
    · have : text = [] := List.length_eq_zero.mp h
      subst this
      simp [List.filter_eq_nil_iff]
    · simp only [h, if_false]
      rw [take_min_left, drop_min_left, ih]
      rw [List.range_succ_eq_map, List.map_cons]
      have hhead : (text.drop (w * 0)).take w = text.take w := by simp
      rw [hhead]
      have hne : (fun sg : List Char => !sg.isEmpty) (text.take w) = true := by
        simp only [Bool.not_eq_eq_eq_not, Bool.not_true, List.isEmpty_eq_false, ne_eq]
        intro hnil
        rcases List.take_eq_nil_iff.mp hnil with h0 | h0
        · omega
        · exact h (by simp [h0])
      rw [@List.filter_cons_of_pos _ (fun sg : List Char => !sg.isEmpty) _ _ hne]
      rw [List.map_map]
      have hmm : List.map (fun i => List.take w (List.drop (w * i) (List.drop w text))) (List.range n)
          = List.map ((fun i => List.take w (List.drop (w * i) text)) ∘ Nat.succ) (List.range n) := by
        apply List.map_congr_left
        intro i _
        simp only [Function.comp]
        rw [List.drop_drop]
        congr 2
        rw [Nat.succ_eq_add_one]
        ring
      rw [hmm]

theorem chunkLoop_full (w : Nat) (hw : 1 ≤ w) :
    ∀ n text, w * n ≤ text.length →
      (chunkLoop w n text).1 = (List.range n).map fun i => (text.drop (w * i)).take w := by
  intro n text hlen
  rw [chunkLoop_fst w hw]
  apply List.filter_eq_self.mpr
  intro sg hsg
  rcases List.mem_map.mp hsg with ⟨i, hi, rfl⟩
  have hi' : i < n := List.mem_range.mp hi
  simp only [Bool.not_eq_eq_eq_not, Bool.not_true, List.isEmpty_eq_false, ne_eq]
  intro hnil
  rcases List.take_eq_nil_iff.mp hnil with h0 | h0
  · omega
  · have : text.length - w * i = 0 := by
      have := List.length_drop (w * i) text
      rw [h0] at this
      simpa using this.symm
    have : w * i + w ≤ w * n := by
      calc w * i + w = w * (i + 1) := by ring
        _ ≤ w * n := Nat.mul_le_mul_left w hi'
    omega

theorem modifyLast_length (f : List Char → List Char) :
    ∀ l, (modifyLast f l).length = l.length := by
  intro l
  induction l with
  | nil => rfl
  | cons x xs ih =>
    cases xs with
    | nil => rfl
    | cons y ys => simpa [modifyLast] using ih

theorem modifyLast_concat (f : List Char → List Char) (a : List Char) :
    ∀ l, modifyLast f (l ++ [a]) = l ++ [f a] := by
  intro l
  induction l with
  | nil => rfl
  | cons x xs ih =>
    cases xs with
    | nil => rfl
    | cons y ys =>
      calc modifyLast f ((x :: y :: ys) ++ [a])
          = x :: modifyLast f ((y :: ys) ++ [a]) := by simp [modifyLast]
        _ = x :: ((y :: ys) ++ [f a]) := by rw [ih]
        _ = (x :: y :: ys) ++ [f a] := by simp

theorem modifyLast_cons_of_ne (f : List Char → List Char) (s : List Char)
    (t : List (List Char)) (ht : t ≠ []) :
    modifyLast f (s :: t) = s :: modifyLast f t := by
  cases t with
  | nil => exact absurd rfl ht
  | cons y ys => rfl

/-- Core fact behind the blank-padding branch: when the text is nonempty
and fits in `n` lines of width `w`, padding the last produced segment and
appending blank lines yields exactly the `n` per-line chunks, each
right-padded with spaces to width `w`. -/
theorem pad_chunkLoop (w : Nat) :
    ∀ (n : Nat) (text : List Char), text ≠ [] → text.length ≤ w * n →
      (chunkLoop w n text).2 = [] ∧ (chunkLoop w n text).1 ≠ [] ∧
      modifyLast (fun s => s ++ List.replicate (w - s.length) ' ') (chunkLoop w n text).1
          ++ List.replicate (n - (chunkLoop w n text).1.length) (List.replicate w ' ')
        = (List.range n).map fun i =>
            (text.drop (w * i)).take w
              ++ List.replicate (w - ((text.drop (w * i)).take w).length) ' ' := by
  intro n
  induction n with
  | zero =>
    intro text hne hlen
    have : 0 < text.length := List.length_pos.mpr hne
    omega
  | succ n ih =>
    intro text hne hlen
    have hlp : ¬text.length = 0 := by
      have : 0 < text.length := List.length_pos.mpr hne
      omega
    rw [chunkLoop]
    simp only [hlp, if_false]
    by_cases hsmall : text.length ≤ w
    · have hdropnil : text.drop w = [] := List.drop_eq_nil_of_le hsmall
      rw [drop_min_left, take_min_left, hdropnil, chunkLoop_nil,
        List.take_of_length_le hsmall]
      refine ⟨rfl, by simp, ?_⟩
      rw [List.range_succ_eq_map, List.map_cons]
      have h0 : (text.drop (w * 0)).take w = text := by
        simp [List.take_of_length_le hsmall]
      rw [h0]
      have htail : List.map ((fun i =>
            (text.drop (w * i)).take w
              ++ List.replicate (w - ((text.drop (w * i)).take w).length) ' ') ∘ Nat.succ)
          (List.range n) = List.replicate n (List.replicate w ' ') := by
        have hmem : ∀ b ∈ List.map ((fun i =>
              (text.drop (w * i)).take w
                ++ List.replicate (w - ((text.drop (w * i)).take w).length) ' ') ∘ Nat.succ)
            (List.range n), b = List.replicate w ' ' := by
          intro b hb
          rcases List.mem_map.mp hb with ⟨i, _, rfl⟩
          have hge : text.length ≤ w * Nat.succ i := by
            have : w ≤ w * Nat.succ i := Nat.le_mul_of_pos_right w (Nat.succ_pos i)
            omega
          simp only [Function.comp]
          rw [List.drop_eq_nil_of_le hge]
          simp
        have := List.eq_replicate_of_mem hmem
        rwa [List.length_map, List.length_range] at this
      rw [List.map_map, htail]
      simp [modifyLast]
    · have hbig : w < text.length := by omega
      have hdropne : text.drop w ≠ [] := by
        intro hnil
        have := List.length_drop w text
        rw [hnil] at this
        simp at this
        omega
      have hlen' : (text.drop w).length ≤ w * n := by
        rw [List.length_drop, Nat.mul_succ] at *
        omega
      obtain ⟨ihrest, ihne, ihpad⟩ := ih (text.drop w) hdropne hlen'
      rw [drop_min_left, take_min_left]
      refine ⟨ihrest, by simp, ?_⟩
      rw [modifyLast_cons_of_ne _ _ _ ihne]
      have hlenw : (text.take w).length = w := by
        rw [List.length_take]
        omega
      have hcount : Nat.succ n - (text.take w :: (chunkLoop w n (text.drop w)).1).length
          = n - (chunkLoop w n (text.drop w)).1.length := by
        simp only [List.length_cons]
        omega
      rw [hcount, List.cons_append, ihpad]
      rw [List.range_succ_eq_map, List.map_cons, List.map_map]
      have h0 : (text.drop (w * 0)).take w
          ++ List.replicate (w - ((text.drop (w * 0)).take w).length) ' ' = text.take w := by
        simp only [Nat.mul_zero, List.drop_zero]
        rw [hlenw]
        simp
      rw [h0]
      have hmm : List.map (fun i =>
            ((text.drop w).drop (w * i)).take w
              ++ List.replicate (w - (((text.drop w).drop (w * i)).take w).length) ' ')
          (List.range n) = List.map ((fun i =>
            (text.drop (w * i)).take w
              ++ List.replicate (w - ((text.drop (w * i)).take w).length) ' ') ∘ Nat.succ)
          (List.range n) := by
        apply List.map_congr_left
        intro i _
        simp only [Function.comp]
        rw [List.drop_drop]
        have : w + w * i = w * Nat.succ i := by
          rw [Nat.succ_eq_add_one]
          ring
        rw [this]
      rw [hmm]

/-- On an all-success transport, an in-bounds `SetPosition` on an active
session transmits exactly one command byte (six raw transfers). -/
theorem setPosition_ok (lcd : Lcd) (tr : Nat → Bool) (htr : ∀ n, tr n = true)
    (idx : Nat) (log : List RawData) (line pos : Int)
    (ha : lcd.active = true)
    (hpos : (getSize lcd).1 = -1 ∨ (0 ≤ pos ∧ pos ≤ (getSize lcd).1 - 1))
    (hline : (getSize lcd).2 = -1 ∨ (0 ≤ line ∧ line ≤ (getSize lcd).2 - 1))
    (hl4 : 0 ≤ line ∧ line < 4) :
    ∃ wire' : Wire, SetPosition lcd ⟨tr, idx, log⟩ line pos = Except.ok (wire', none)
      ∧ wire'.log.length = log.length + 6 ∧ wire'.tr = tr ∧ wire'.idx = idx + 6 := by
  have hc0 : ¬lcd.active = false := by rw [ha]; simp
  have hc1 : ¬((getSize lcd).1 ≠ -1 ∧ (pos < 0 ∨ pos > (getSize lcd).1 - 1)) := by
    rcases hpos with hp | hp
    · intro hcon
      exact hcon.1 hp
    · intro hcon
      rcases hcon.2 with hlt | hgt <;> omega
  have hc2 : ¬((getSize lcd).2 ≠ -1 ∧ (line < 0 ∨ line > (getSize lcd).2 - 1)) := by
    rcases hline with hp | hp
    · intro hcon
      exact hcon.1 hp
    · intro hcon
      rcases hcon.2 with hlt | hgt <;> omega
  rw [SetPosition, if_neg hc0, if_neg hc1, if_neg hc2, if_pos hl4]
  simp only [writeByte_allTrue lcd tr htr]
  refine ⟨_, rfl, ?_, rfl, rfl⟩
  simp [strobeSeq_length]

/-- `splitText` of the empty string either yields no segments or panics
in the blank-padding branch. -/
theorem splitTextCore_empty (w s e : Int) (opts : Nat) :
    splitTextCore w s e [] opts = Except.ok []
      ∨ splitTextCore w s e [] opts = Except.error (GoPanic.indexOutOfRange (-1) 0) := by
  rw [splitTextCore]
  by_cases hb : w ≠ -1 ∧ s ≠ -1 ∧ e ≠ -1
  · rw [if_pos hb]
    simp only [chunkLoop_nil]
    by_cases hp : opts &&& SHOW_BLANK_PADDING ≠ 0
    · right
      simp [hp]
    · left
      simp [hp]
  · rw [if_neg hb]
    left
    simp

theorem getLineRange_cases (opts : Nat) :
    ((getLineRange opts).1 = -1 ∧ (getLineRange opts).2 = -1) ∨
      (0 ≤ (getLineRange opts).1 ∧ (getLineRange opts).1 ≤ (getLineRange opts).2 ∧
        (getLineRange opts).2 ≤ 3) := by
  by_cases h1 : opts &&& SHOW_LINE_1 ≠ 0 <;>
    by_cases h2 : opts &&& SHOW_LINE_2 ≠ 0 <;>
      by_cases h3 : opts &&& SHOW_LINE_3 ≠ 0 <;>
        by_cases h4 : opts &&& SHOW_LINE_4 ≠ 0 <;>
          simp [getLineRange, h1, h2, h3, h4]

theorem writeByte_err_allTrue (lcd : Lcd) (wire : Wire) (htr : ∀ n, wire.tr n = true)
    (data ctrl : Nat) : (writeByte lcd wire data ctrl).2 = none :=
  congrArg Prod.snd (writeByte_allTrue lcd wire.tr htr wire.idx wire.log data ctrl)

theorem writeByte_tr_allTrue (lcd : Lcd) (wire : Wire) (htr : ∀ n, wire.tr n = true)
    (data ctrl : Nat) : (writeByte lcd wire data ctrl).1.tr = wire.tr :=
  congrArg (fun p => p.1.tr) (writeByte_allTrue lcd wire.tr htr wire.idx wire.log data ctrl)

/-! ### Claim theorems -/

/-- Claim C5: on a working transport, `writeByte` performs exactly two
nibble transfers — high nibble first, then low nibble, each placed in the
high four bits of the transfer byte OR'd with the control bits — and each
nibble transfer is exactly three raw transfers: present (enable low, 50µs),
strobe-high (held for the configured write-strobe delay), strobe-low (held
for the configured reset-strobe delay); the backlight bit is OR'd into
every transfer byte when the backlight is on. -/
theorem writeByte_nibble_framing (lcd : Lcd) (wire : Wire) (data ctrl : Nat)
    (htr : ∀ n, wire.tr n = true) :
    writeByte lcd wire data ctrl =
      (⟨wire.tr, wire.idx + 6, wire.log ++
        [⟨(if lcd.backlight then data &&& 0xF0 ||| ctrl ||| PIN_BACKLIGHT
            else data &&& 0xF0 ||| ctrl), 50 * 1000⟩,
         ⟨(if lcd.backlight then data &&& 0xF0 ||| ctrl ||| PIN_BACKLIGHT
            else data &&& 0xF0 ||| ctrl) ||| PIN_EN, lcd.writeStrobeDelay * 1000⟩,
         ⟨(if lcd.backlight then data &&& 0xF0 ||| ctrl ||| PIN_BACKLIGHT
            else data &&& 0xF0 ||| ctrl), lcd.resetStrobeDelay * 1000⟩,
         ⟨(if lcd.backlight then (data <<< 4) &&& 0xF0 ||| ctrl ||| PIN_BACKLIGHT
            else (data <<< 4) &&& 0xF0 ||| ctrl), 50 * 1000⟩,
         ⟨(if lcd.backlight then (data <<< 4) &&& 0xF0 ||| ctrl ||| PIN_BACKLIGHT
            else (data <<< 4) &&& 0xF0 ||| ctrl) ||| PIN_EN, lcd.writeStrobeDelay * 1000⟩,
         ⟨(if lcd.backlight then (data <<< 4) &&& 0xF0 ||| ctrl ||| PIN_BACKLIGHT
            else (data <<< 4) &&& 0xF0 ||| ctrl), lcd.resetStrobeDelay * 1000⟩]⟩, none) := by
  refine (writeByte_allTrue lcd wire.tr htr wire.idx wire.log data ctrl).trans ?_
  simp only [strobeSeq, List.append_assoc, List.cons_append, List.nil_append]

/-- Witness for Claim C5: byte 0xAB with the register-select pin on a
backlight-off 16x2 session. -/
theorem writeByte_nibble_framing_witness :
    writeByte lcd16 wireT 0xAB 1 =
      (⟨wireT.tr, 6, [⟨0xA1, 50000⟩, ⟨0xA5, 200000⟩, ⟨0xA1, 30000⟩,
        ⟨0xB1, 50000⟩, ⟨0xB5, 200000⟩, ⟨0xB1, 30000⟩]⟩, none) := by
  rw [writeByte_nibble_framing lcd16 wireT 0xAB 1 (fun n => rfl)]
  rfl

/-- Claim C3 (counterexample): on a transport that fails, `CursorOn` still
replaces the stored display-control snapshot (0x04 becomes 0x06) even
though the transmission reported an error and no raw transfer succeeded. -/
theorem controlRegister_error_cx :
    (CursorOn lcd16 wireF).2.2 = some GoErr.transportError ∧
    lcd16.displayControl = 0x04 ∧
    (CursorOn lcd16 wireF).1.displayControl = 0x06 ∧
    (CursorOn lcd16 wireF).2.1.log = [] :=
  ⟨rfl, rfl, rfl, rfl⟩

/-- Claim C3 (amended): every read-modify-write control operation stores
the recomputed register value into the session before transmitting; the
stored snapshot equals the new value whatever the transport outcome, so a
failed transmission leaves the snapshot already holding the new value. -/
theorem controlRegister_update_first (lcd : Lcd) (wire : Wire) :
    (DisplayOn lcd wire).1.displayControl = lcd.displayControl ||| OPT_Enable_Display ∧
    (DisplayOff lcd wire).1.displayControl = bandNot lcd.displayControl OPT_Enable_Display ∧
    (CursorOn lcd wire).1.displayControl = lcd.displayControl ||| OPT_Enable_Cursor ∧
    (CursorOff lcd wire).1.displayControl = bandNot lcd.displayControl OPT_Enable_Cursor ∧
    (BlinkOn lcd wire).1.displayControl = lcd.displayControl ||| OPT_Enable_Blink ∧
    (BlinkOff lcd wire).1.displayControl = bandNot lcd.displayControl OPT_Enable_Blink ∧
    (LeftRightDisplay lcd wire).1.displayMode = lcd.displayMode ||| OPT_EntryLeft ∧
    (RightLeftDisplay lcd wire).1.displayMode = bandNot lcd.displayMode OPT_EntryLeft :=
  ⟨rfl, rfl, rfl, rfl, rfl, rfl, rfl, rfl⟩

/-- Claim C2 (code bug): on both supported geometries, `splitText` of the
empty string with an active line range and the blank-padding option does
not yield an empty segment sequence — it indexes entry `len(lines)-1 = -1`
of the empty segment list (a runtime panic); without the padding option the
empty string does yield no segments. -/
theorem splitText_empty_padding_bug :
    splitText lcd16 [] (SHOW_LINE_1 ||| SHOW_BLANK_PADDING)
        = Except.error (GoPanic.indexOutOfRange (-1) 0) ∧
    splitText lcd20 [] (SHOW_LINE_1 ||| SHOW_BLANK_PADDING)
        = Except.error (GoPanic.indexOutOfRange (-1) 0) ∧
    splitText lcd16 [] SHOW_LINE_1 = Except.ok [] :=
  ⟨rfl, rfl, rfl⟩

/-- Claim C8: once `Shutdown` has marked the session inactive, every call
to `ShowMessage`, `SetPosition` and `Fill` returns success immediately and
transmits nothing (the wire is returned untouched). -/
theorem shutdown_silences_ops (lcd : Lcd) (wire wire2 : Wire) (text : List Char)
    (opts : Nat) (line pos : Int) (ch : Nat) :
    (Shutdown lcd wire).1.active = false ∧
    ShowMessage (Shutdown lcd wire).1 wire2 text opts = Except.ok (wire2, none) ∧
    SetPosition (Shutdown lcd wire).1 wire2 line pos = Except.ok (wire2, none) ∧
    Fill (Shutdown lcd wire).1 wire2 ch = Except.ok (wire2, none) := by
  have hact : (Shutdown lcd wire).1.active = false := rfl
  refine ⟨hact, ?_, ?_, ?_⟩
  · rw [ShowMessage, if_pos hact]
  · rw [SetPosition, if_pos hact]
  · rw [Fill, if_pos hact]

/-- Claim C9: on an active session with a working transport, `CursorOn`
followed by `BlinkOn` transmits without error and leaves a display-control
snapshot — and hence a final transmitted display-control command byte —
with both the cursor-enable bit (bit 1) and the blink-enable bit (bit 0)
set: each operation ORs its bit into the previous snapshot. -/
theorem cursorOn_blinkOn_both_bits (lcd : Lcd) (wire : Wire)
    (ha : lcd.active = true) (htr : ∀ n, wire.tr n = true) :
    (CursorOn lcd wire).2.2 = none ∧
    (BlinkOn (CursorOn lcd wire).1 (CursorOn lcd wire).2.1).2.2 = none ∧
    (BlinkOn (CursorOn lcd wire).1 (CursorOn lcd wire).2.1).1.displayControl
      = lcd.displayControl ||| OPT_Enable_Cursor ||| OPT_Enable_Blink ∧
    ((BlinkOn (CursorOn lcd wire).1 (CursorOn lcd wire).2.1).1.displayControl).testBit 1
      = true ∧
    ((BlinkOn (CursorOn lcd wire).1 (CursorOn lcd wire).2.1).1.displayControl).testBit 0
      = true ∧
    (CMD_Display_Control |||
      (BlinkOn (CursorOn lcd wire).1 (CursorOn lcd wire).2.1).1.displayControl).testBit 1
      = true ∧
    (CMD_Display_Control |||
      (BlinkOn (CursorOn lcd wire).1 (CursorOn lcd wire).2.1).1.displayControl).testBit 0
      = true := by
  have h1 : (CursorOn lcd wire).2.2 = none :=
    writeByte_err_allTrue _ wire htr _ _
  have htr1 : ∀ n, (CursorOn lcd wire).2.1.tr n = true := by
    intro n
    have := writeByte_tr_allTrue
      { lcd with displayControl := lcd.displayControl ||| OPT_Enable_Cursor }
      wire htr (CMD_Display_Control ||| (lcd.displayControl ||| OPT_Enable_Cursor)) 0
    calc (CursorOn lcd wire).2.1.tr n = wire.tr n := by rw [show (CursorOn lcd wire).2.1.tr = wire.tr from this]
      _ = true := htr n
  have h2 : (BlinkOn (CursorOn lcd wire).1 (CursorOn lcd wire).2.1).2.2 = none :=
    writeByte_err_allTrue _ _ htr1 _ _
  have h3 : (BlinkOn (CursorOn lcd wire).1 (CursorOn lcd wire).2.1).1.displayControl
      = lcd.displayControl ||| OPT_Enable_Cursor ||| OPT_Enable_Blink := rfl
  have hb1 : Nat.testBit OPT_Enable_Cursor 1 = true := by decide
  have hb0 : Nat.testBit OPT_Enable_Blink 0 = true := by decide
  have t1 : ((lcd.displayControl ||| OPT_Enable_Cursor) ||| OPT_Enable_Blink).testBit 1
      = true := by
    rw [Nat.testBit_or, Nat.testBit_or, hb1]
    simp
  have t0 : ((lcd.displayControl ||| OPT_Enable_Cursor) ||| OPT_Enable_Blink).testBit 0
      = true := by
    rw [Nat.testBit_or, hb0]
    simp
  refine ⟨h1, h2, h3, ?_, ?_, ?_, ?_⟩
  · rw [h3]
    exact t1
  · rw [h3]
    exact t0
  · rw [h3, Nat.testBit_or, t1]
    simp
  · rw [h3, Nat.testBit_or, t0]
    simp

/-- Witness for Claim C9 on a concrete fresh 16x2 session. -/
theorem cursorOn_blinkOn_both_bits_witness :
    (CursorOn lcd16 wireT).2.2 = none ∧
    (BlinkOn (CursorOn lcd16 wireT).1 (CursorOn lcd16 wireT).2.1).2.2 = none ∧
    (BlinkOn (CursorOn lcd16 wireT).1 (CursorOn lcd16 wireT).2.1).1.displayControl
      = lcd16.displayControl ||| OPT_Enable_Cursor ||| OPT_Enable_Blink ∧
    ((BlinkOn (CursorOn lcd16 wireT).1 (CursorOn lcd16 wireT).2.1).1.displayControl).testBit 1
      = true ∧
    ((BlinkOn (CursorOn lcd16 wireT).1 (CursorOn lcd16 wireT).2.1).1.displayControl).testBit 0
      = true ∧
    (CMD_Display_Control |||
      (BlinkOn (CursorOn lcd16 wireT).1 (CursorOn lcd16 wireT).2.1).1.displayControl).testBit 1
      = true ∧
    (CMD_Display_Control |||
      (BlinkOn (CursorOn lcd16 wireT).1 (CursorOn lcd16 wireT).2.1).1.displayControl).testBit 0
      = true :=
  cursorOn_blinkOn_both_bits lcd16 wireT rfl (fun _ => rfl)

theorem splitTextCore_noflags (w s e : Int) (text : List Char) (opts : Nat)
    (hb : w ≠ -1 ∧ s ≠ -1 ∧ e ≠ -1) (he : opts &&& SHOW_ELIPSE_IF_NOT_FIT = 0)
    (hp : opts &&& SHOW_BLANK_PADDING = 0) :
    splitTextCore w s e text opts
      = Except.ok (chunkLoop w.toNat (e - s + 1).toNat text).1 := by
  simp only [splitTextCore]
  rw [if_pos hb]
  by_cases hr : 0 < (chunkLoop w.toNat (e - s + 1).toNat text).2.length
  · rw [if_pos hr, if_neg (by simp [he])]
  · rw [if_neg hr, if_neg (by simp [hp])]

theorem splitTextCore_ellipsisOff_rem (w s e : Int) (text : List Char) (opts : Nat)
    (hb : w ≠ -1 ∧ s ≠ -1 ∧ e ≠ -1)
    (hr : 0 < (chunkLoop w.toNat (e - s + 1).toNat text).2.length)
    (he : opts &&& SHOW_ELIPSE_IF_NOT_FIT = 0) :
    splitTextCore w s e text opts
      = Except.ok (chunkLoop w.toNat (e - s + 1).toNat text).1 := by
  simp only [splitTextCore]
  rw [if_pos hb, if_pos hr, if_neg (by simp [he])]

theorem splitTextCore_nopad (w s e : Int) (text : List Char) (opts : Nat)
    (hb : w ≠ -1 ∧ s ≠ -1 ∧ e ≠ -1)
    (hr : ¬0 < (chunkLoop w.toNat (e - s + 1).toNat text).2.length)
    (hp : opts &&& SHOW_BLANK_PADDING = 0) :
    splitTextCore w s e text opts
      = Except.ok (chunkLoop w.toNat (e - s + 1).toNat text).1 := by
  simp only [splitTextCore]
  rw [if_pos hb, if_neg hr, if_neg (by simp [hp])]

theorem splitTextCore_ellipsis (w s e : Int) (text : List Char) (opts : Nat)
    (hb : w ≠ -1 ∧ s ≠ -1 ∧ e ≠ -1) (he : opts &&& SHOW_ELIPSE_IF_NOT_FIT ≠ 0)
    (hr : 0 < (chunkLoop w.toNat (e - s + 1).toNat text).2.length)
    (hne : ¬(chunkLoop w.toNat (e - s + 1).toNat text).1.isEmpty = true) :
    splitTextCore w s e text opts = Except.ok
      (modifyLast (fun sg => sg.dropLast ++ ['~'])
        (chunkLoop w.toNat (e - s + 1).toNat text).1) := by
  simp only [splitTextCore]
  rw [if_pos hb, if_pos hr, if_pos he, if_neg hne]

theorem splitTextCore_blankpad (w s e : Int) (text : List Char) (opts : Nat)
    (hb : w ≠ -1 ∧ s ≠ -1 ∧ e ≠ -1) (hp : opts &&& SHOW_BLANK_PADDING ≠ 0)
    (hr : ¬0 < (chunkLoop w.toNat (e - s + 1).toNat text).2.length)
    (hne : ¬(chunkLoop w.toNat (e - s + 1).toNat text).1.isEmpty = true) :
    splitTextCore w s e text opts = Except.ok
      (modifyLast (fun sg => sg ++ List.replicate (w.toNat - sg.length) ' ')
          (chunkLoop w.toNat (e - s + 1).toNat text).1
        ++ List.replicate
            ((e - s + 1).toNat - (chunkLoop w.toNat (e - s + 1).toNat text).1.length)
            (List.replicate w.toNat ' ')) := by
  simp only [splitTextCore]
  rw [if_pos hb, if_neg hr, if_pos hp, if_neg hne]

theorem splitTextCore_length_le (w s e : Int) (text : List Char) (opts : Nat)
    (hb : w ≠ -1 ∧ s ≠ -1 ∧ e ≠ -1) :
    ∀ segs, splitTextCore w s e text opts = Except.ok segs →
      segs.length ≤ (e - s + 1).toNat := by
  intro segs hok
  simp only [splitTextCore] at hok
  rw [if_pos hb] at hok
  by_cases hr : 0 < (chunkLoop w.toNat (e - s + 1).toNat text).2.length
  · rw [if_pos hr] at hok
    by_cases he : opts &&& SHOW_ELIPSE_IF_NOT_FIT ≠ 0
    · rw [if_pos he] at hok
      by_cases hemp : (chunkLoop w.toNat (e - s + 1).toNat text).1.isEmpty = true
      · rw [if_pos hemp] at hok
        exact Except.noConfusion hok
      · rw [if_neg hemp] at hok
        rw [← Except.ok.inj hok, modifyLast_length]
        exact chunkLoop_length_le _ _ _
    · rw [if_neg he] at hok
      rw [← Except.ok.inj hok]
      exact chunkLoop_length_le _ _ _
  · rw [if_neg hr] at hok
    by_cases hp : opts &&& SHOW_BLANK_PADDING ≠ 0
    · rw [if_pos hp] at hok
      by_cases hemp : (chunkLoop w.toNat (e - s + 1).toNat text).1.isEmpty = true
      · rw [if_pos hemp] at hok
        exact Except.noConfusion hok
      · rw [if_neg hemp] at hok
        rw [← Except.ok.inj hok]
        rw [List.length_append, modifyLast_length, List.length_replicate]
        have := chunkLoop_length_le w.toNat (e - s + 1).toNat text
        omega
    · rw [if_neg hp] at hok
      rw [← Except.ok.inj hok]
      exact chunkLoop_length_le _ _ _

/-- Claim C6: with a positive width and an active line range, the layout
chunks the text into consecutive width-sized segments (the last may be
shorter, empty trailing chunks are not produced), yielding at most
`endLine - startLine + 1` segments; when text remains, the ellipsis option
replaces the final character of the last segment with a truncation marker
while without it the remainder is silently dropped — each remainder case
holds whatever the blank-padding flag is, and the no-remainder chunk shape
holds whatever the ellipsis flag is — as on the spec's width-4 examples. -/
theorem splitText_chunking_truncation (w s e : Int) (text : List Char) (opts : Nat)
    (hw : 1 ≤ w) (hs : 0 ≤ s) (hse : s ≤ e) :
    (∀ segs, splitTextCore w s e text opts = Except.ok segs →
      segs.length ≤ (e - s + 1).toNat) ∧
    (opts &&& SHOW_ELIPSE_IF_NOT_FIT = 0 →
      w.toNat * (e - s + 1).toNat < text.length →
      splitTextCore w s e text opts = Except.ok
        ((List.range (e - s + 1).toNat).map fun i =>
          (text.drop (w.toNat * i)).take w.toNat)) ∧
    (opts &&& SHOW_ELIPSE_IF_NOT_FIT ≠ 0 →
      w.toNat * (e - s + 1).toNat < text.length →
      splitTextCore w s e text opts = Except.ok
        (((List.range ((e - s + 1).toNat - 1)).map fun i =>
            (text.drop (w.toNat * i)).take w.toNat) ++
          [((text.drop (w.toNat * ((e - s + 1).toNat - 1))).take w.toNat).dropLast
            ++ ['~']])) ∧
    (opts &&& SHOW_BLANK_PADDING = 0 →
      text.length ≤ w.toNat * (e - s + 1).toNat →
      splitTextCore w s e text opts = Except.ok
        (((List.range (e - s + 1).toNat).map fun i =>
            (text.drop (w.toNat * i)).take w.toNat).filter
          fun sg => !sg.isEmpty)) ∧
    splitTextCore 4 0 1 "ABCDEFGHIJ".toList SHOW_NO_OPTIONS
      = Except.ok ["ABCD".toList, "EFGH".toList] ∧
    splitTextCore 4 0 1 "ABCDEFGHIJ".toList SHOW_ELIPSE_IF_NOT_FIT
      = Except.ok ["ABCD".toList, "EFG~".toList] := by
  have hb : w ≠ -1 ∧ s ≠ -1 ∧ e ≠ -1 := ⟨by omega, by omega, by omega⟩
  have hwn : 1 ≤ w.toNat := by omega
  have hn1 : 1 ≤ (e - s + 1).toNat := by omega
  refine ⟨splitTextCore_length_le w s e text opts hb, ?_, ?_, ?_, rfl, rfl⟩
  · intro he hrem
    have hWn : w.toNat * (e - s + 1).toNat ≤ text.length := le_of_lt hrem
    have hr : 0 < (chunkLoop w.toNat (e - s + 1).toNat text).2.length := by
      rw [chunkLoop_snd, List.length_drop]
      omega
    rw [splitTextCore_ellipsisOff_rem w s e text opts hb hr he,
      chunkLoop_full w.toNat hwn (e - s + 1).toNat text hWn]
  · intro he hrem
    have hWn : w.toNat * (e - s + 1).toNat ≤ text.length := le_of_lt hrem
    have hsegs := chunkLoop_full w.toNat hwn (e - s + 1).toNat text hWn
    have hr : 0 < (chunkLoop w.toNat (e - s + 1).toNat text).2.length := by
      rw [chunkLoop_snd, List.length_drop]
      omega
    have hlen : (chunkLoop w.toNat (e - s + 1).toNat text).1.length
        = (e - s + 1).toNat := by
      rw [hsegs, List.length_map, List.length_range]
    have hne : ¬(chunkLoop w.toNat (e - s + 1).toNat text).1.isEmpty = true := by
      rw [List.isEmpty_iff]
      intro hnil
      rw [hnil] at hlen
      simp at hlen
      omega
    rw [splitTextCore_ellipsis w s e text opts hb he hr hne, hsegs]
    have hsplit : (List.range (e - s + 1).toNat).map
          (fun i => (text.drop (w.toNat * i)).take w.toNat)
        = ((List.range ((e - s + 1).toNat - 1)).map
            (fun i => (text.drop (w.toNat * i)).take w.toNat))
          ++ [(text.drop (w.toNat * ((e - s + 1).toNat - 1))).take w.toNat] := by
      conv_lhs => rw [show (e - s + 1).toNat = ((e - s + 1).toNat - 1) + 1 from by omega]
      rw [List.range_succ, List.map_append, List.map_singleton]
    rw [hsplit, modifyLast_concat]
  · intro hp hle
    have hr : ¬0 < (chunkLoop w.toNat (e - s + 1).toNat text).2.length := by
      rw [chunkLoop_snd, List.length_drop]
      omega
    rw [splitTextCore_nopad w s e text opts hb hr hp,
      chunkLoop_fst w.toNat hwn (e - s + 1).toNat text]

/-- Witness for Claim C6 at the spec's width-4 wrap example. -/
theorem splitText_chunking_truncation_witness :
    splitTextCore 4 0 1 "ABCDEFGHIJ".toList SHOW_NO_OPTIONS
      = Except.ok ["ABCD".toList, "EFGH".toList] :=
  (splitText_chunking_truncation 4 0 1 "ABCDEFGHIJ".toList SHOW_NO_OPTIONS
    (by decide) (by decide) (by decide)).2.2.2.2.1

/-- Claim C7: with a positive width and an active line range, when the
text is nonempty and fully consumed, the blank-padding option right-pads
the last partial segment to full width and fills every remaining line with
spaces (the spec's width-4 padding example); and text exactly filling all
lines yields the plain chunks — no truncation marker and no padding —
whatever the option flags are. -/
theorem splitText_blank_padding (w s e : Int) (text : List Char) (opts : Nat)
    (hw : 1 ≤ w) (hs : 0 ≤ s) (hse : s ≤ e) :
    (text ≠ [] → text.length ≤ w.toNat * (e - s + 1).toNat →
      opts &&& SHOW_BLANK_PADDING ≠ 0 →
      splitTextCore w s e text opts = Except.ok
        ((List.range (e - s + 1).toNat).map fun i =>
          (text.drop (w.toNat * i)).take w.toNat
            ++ List.replicate
                (w.toNat - ((text.drop (w.toNat * i)).take w.toNat).length) ' ')) ∧
    (text.length = w.toNat * (e - s + 1).toNat →
      splitTextCore w s e text opts = Except.ok
        ((List.range (e - s + 1).toNat).map fun i =>
          (text.drop (w.toNat * i)).take w.toNat)) ∧
    splitTextCore 4 0 2 "AB".toList SHOW_BLANK_PADDING
      = Except.ok ["AB  ".toList, "    ".toList, "    ".toList] := by
  have hb : w ≠ -1 ∧ s ≠ -1 ∧ e ≠ -1 := ⟨by omega, by omega, by omega⟩
  have hwn : 1 ≤ w.toNat := by omega
  have hn1 : 1 ≤ (e - s + 1).toNat := by omega
  refine ⟨?_, ?_, rfl⟩
  · intro htext hlen hp
    obtain ⟨hrest, hne, hpad⟩ :=
      pad_chunkLoop w.toNat (e - s + 1).toNat text htext hlen
    have hr : ¬0 < (chunkLoop w.toNat (e - s + 1).toNat text).2.length := by
      rw [hrest]
      simp
    have hne' : ¬(chunkLoop w.toNat (e - s + 1).toNat text).1.isEmpty = true := by
      rw [List.isEmpty_iff]
      exact hne
    rw [splitTextCore_blankpad w s e text opts hb hp hr hne']
    exact congrArg Except.ok hpad
  · intro hlen
    have htext : text ≠ [] := by
      intro hnil
      rw [hnil] at hlen
      simp at hlen
      rcases hlen with h | h <;> omega
    have hWn : w.toNat * (e - s + 1).toNat ≤ text.length := le_of_eq hlen.symm
    have hsegs := chunkLoop_full w.toNat hwn (e - s + 1).toNat text hWn
    have hslen : (chunkLoop w.toNat (e - s + 1).toNat text).1.length
        = (e - s + 1).toNat := by
      rw [hsegs, List.length_map, List.length_range]
    have hr : ¬0 < (chunkLoop w.toNat (e - s + 1).toNat text).2.length := by
      rw [chunkLoop_snd, List.length_drop]
      omega
    by_cases hp : opts &&& SHOW_BLANK_PADDING ≠ 0
    · have hne' : ¬(chunkLoop w.toNat (e - s + 1).toNat text).1.isEmpty = true := by
        rw [List.isEmpty_iff]
        intro hnil
        rw [hnil] at hslen
        simp at hslen
        omega
      rw [splitTextCore_blankpad w s e text opts hb hp hr hne', hslen, hsegs]
      simp only [Nat.sub_self, List.replicate_zero, List.append_nil]
      have hsplit : (List.range (e - s + 1).toNat).map
            (fun i => (text.drop (w.toNat * i)).take w.toNat)
          = ((List.range ((e - s + 1).toNat - 1)).map
              (fun i => (text.drop (w.toNat * i)).take w.toNat))
            ++ [(text.drop (w.toNat * ((e - s + 1).toNat - 1))).take w.toNat] := by
        conv_lhs =>
          rw [show (e - s + 1).toNat = ((e - s + 1).toNat - 1) + 1 from by omega]
        rw [List.range_succ, List.map_append, List.map_singleton]
      rw [hsplit, modifyLast_concat]
      have hlast : ((text.drop (w.toNat * ((e - s + 1).toNat - 1))).take w.toNat).length
          = w.toNat := by
        rw [List.length_take, List.length_drop]
        have : w.toNat * ((e - s + 1).toNat - 1) + w.toNat
            ≤ w.toNat * (e - s + 1).toNat := by
          calc w.toNat * ((e - s + 1).toNat - 1) + w.toNat
              = w.toNat * (((e - s + 1).toNat - 1) + 1) := by ring
            _ ≤ w.toNat * (e - s + 1).toNat :=
                Nat.mul_le_mul_left _ (by omega)
        omega
      rw [hlast]
      simp
    · rw [splitTextCore_nopad w s e text opts hb hr (by omega), hsegs]

/-- Witness for Claim C7 at the spec's width-4 padding example. -/
theorem splitText_blank_padding_witness :
    splitTextCore 4 0 2 "AB".toList SHOW_BLANK_PADDING
      = Except.ok ["AB  ".toList, "    ".toList, "    ".toList] :=
  (splitText_blank_padding 4 0 2 "AB".toList SHOW_BLANK_PADDING
    (by decide) (by decide) (by decide)).2.2

/-- Claim C1 (counterexample): on an active unknown-geometry session,
`SetPosition 4 0` does not transmit a position-set command — it panics
indexing the 4-entry line-offset table with line 4. -/
theorem setPosition_unknown_cx :
    SetPosition lcdU wireT 4 0 = Except.error (GoPanic.indexOutOfRange 4 4) :=
  rfl

/-- Claim C1 (amended): on an active unknown-geometry session with a
working transport, `SetPosition` never fails on bounds (no validation error
is ever returned, whatever `line` and `pos` are); it transmits a
position-set command for every `pos` provided `line ∈ [0,3]`, and for
`line` outside `[0,3]` the unchecked 4-entry line-offset table access
panics instead of transmitting. -/
theorem setPosition_unknown_geometry (lcd : Lcd) (wire : Wire) (line pos : Int)
    (ha : lcd.active = true) (ht : lcd.lcdType = LcdType.LCD_UNKNOWN)
    (htr : ∀ n, wire.tr n = true) :
    (∀ w' e, SetPosition lcd wire line pos ≠ Except.ok (w', some e)) ∧
    (0 ≤ line → line ≤ 3 →
      ∃ wire', SetPosition lcd wire line pos = Except.ok (wire', none)
        ∧ wire'.log.length = wire.log.length + 6) ∧
    ((line < 0 ∨ 3 < line) →
      SetPosition lcd wire line pos = Except.error (GoPanic.indexOutOfRange line 4)) := by
  have hs : getSize lcd = (-1, -1) := by
    rw [getSize, ht]
  have hc0 : ¬lcd.active = false := by
    rw [ha]
    simp
  have hc1 : ¬((getSize lcd).1 ≠ -1 ∧ (pos < 0 ∨ pos > (getSize lcd).1 - 1)) := by
    rw [hs]
    simp
  have hc2 : ¬((getSize lcd).2 ≠ -1 ∧ (line < 0 ∨ line > (getSize lcd).2 - 1)) := by
    rw [hs]
    simp
  refine ⟨?_, ?_, ?_⟩
  · intro w' e hcon
    rw [SetPosition, if_neg hc0, if_neg hc1, if_neg hc2] at hcon
    by_cases h4 : 0 ≤ line ∧ line < 4
    · rw [if_pos h4] at hcon
      have := congrArg Prod.snd (Except.ok.inj hcon)
      rw [writeByte_err_allTrue lcd wire htr] at this
      exact Option.noConfusion this
    · rw [if_neg h4] at hcon
      exact Except.noConfusion hcon
  · intro h0 h3
    exact (setPosition_ok lcd wire.tr htr wire.idx wire.log line pos ha
      (Or.inl (congrArg Prod.fst hs)) (Or.inl (congrArg Prod.snd hs))
      ⟨h0, by omega⟩).imp (fun w' hw' => ⟨hw'.1, hw'.2.1⟩)
  · intro hout
    have h4 : ¬(0 ≤ line ∧ line < 4) := by omega
    rw [SetPosition, if_neg hc0, if_neg hc1, if_neg hc2, if_neg h4]

/-- Witness for Claim C1 at line 2, column 100 on an unknown geometry. -/
theorem setPosition_unknown_geometry_witness :
    ∃ wire', SetPosition lcdU wireT 2 100 = Except.ok (wire', none)
      ∧ wire'.log.length = wireT.log.length + 6 :=
  (setPosition_unknown_geometry lcdU wireT 2 100 rfl rfl (fun _ => rfl)).2.1
    (by decide) (by decide)

/-- Claim C4: on an active session with a supported geometry and a working
transport, `SetPosition(line, pos)` succeeds exactly when
`pos ∈ [0, width-1]` and `line ∈ [0, height-1]`, transmitting one
position-set command (six raw transfers); outside those bounds it returns a
validation error naming the offending value and its valid range, with the
wire untouched (zero transmissions). -/
theorem setPosition_validation (lcd : Lcd) (wire : Wire) (line pos : Int)
    (ha : lcd.active = true) (ht : lcd.lcdType ≠ LcdType.LCD_UNKNOWN)
    (htr : ∀ n, wire.tr n = true) :
    (0 ≤ pos → pos ≤ (getSize lcd).1 - 1 → 0 ≤ line → line ≤ (getSize lcd).2 - 1 →
      ∃ wire', SetPosition lcd wire line pos = Except.ok (wire', none)
        ∧ wire'.log.length = wire.log.length + 6) ∧
    ((pos < 0 ∨ pos > (getSize lcd).1 - 1) →
      SetPosition lcd wire line pos
        = Except.ok (wire, some (GoErr.cursorPosOutOfRange pos ((getSize lcd).1 - 1)))) ∧
    (0 ≤ pos → pos ≤ (getSize lcd).1 - 1 → (line < 0 ∨ line > (getSize lcd).2 - 1) →
      SetPosition lcd wire line pos
        = Except.ok (wire, some (GoErr.cursorLineOutOfRange line ((getSize lcd).2 - 1)))) := by
  have hc0 : ¬lcd.active = false := by
    rw [ha]
    simp
  have hwh : ((getSize lcd).1 = 16 ∧ (getSize lcd).2 = 2)
      ∨ ((getSize lcd).1 = 20 ∧ (getSize lcd).2 = 4) := by
    cases hty : lcd.lcdType with
    | LCD_UNKNOWN => exact absurd hty ht
    | LCD_16x2 =>
      left
      rw [getSize, hty]
      exact ⟨rfl, rfl⟩
    | LCD_20x4 =>
      right
      rw [getSize, hty]
      exact ⟨rfl, rfl⟩
  refine ⟨?_, ?_, ?_⟩
  · intro h1 h2 h3 h4
    have hl4 : 0 ≤ line ∧ line < 4 := by
      rcases hwh with ⟨hw, hh⟩ | ⟨hw, hh⟩ <;> rw [hh] at h4 <;> exact ⟨h3, by omega⟩
    exact (setPosition_ok lcd wire.tr htr wire.idx wire.log line pos ha
      (Or.inr ⟨h1, h2⟩) (Or.inr ⟨h3, h4⟩) hl4).imp (fun w' hw' => ⟨hw'.1, hw'.2.1⟩)
  · intro hbad
    have hw1 : (getSize lcd).1 ≠ -1 := by
      rcases hwh with ⟨hw, _⟩ | ⟨hw, _⟩ <;> rw [hw] <;> simp
    rw [SetPosition, if_neg hc0, if_pos ⟨hw1, hbad⟩]
  · intro h1 h2 hbad
    have hc1 : ¬((getSize lcd).1 ≠ -1 ∧ (pos < 0 ∨ pos > (getSize lcd).1 - 1)) := by
      intro hcon
      rcases hcon.2 with hx | hx <;> omega
    have hh1 : (getSize lcd).2 ≠ -1 := by
      rcases hwh with ⟨_, hh⟩ | ⟨_, hh⟩ <;> rw [hh] <;> simp
    rw [SetPosition, if_neg hc0, if_neg hc1, if_pos ⟨hh1, hbad⟩]

theorem setPosition_lineErr (lcd : Lcd) (wire : Wire) (line pos : Int)
    (ha : lcd.active = true)
    (hc1 : ¬((getSize lcd).1 ≠ -1 ∧ (pos < 0 ∨ pos > (getSize lcd).1 - 1)))
    (hh : (getSize lcd).2 ≠ -1) (hbad : line < 0 ∨ line > (getSize lcd).2 - 1) :
    SetPosition lcd wire line pos
      = Except.ok (wire, some (GoErr.cursorLineOutOfRange line ((getSize lcd).2 - 1))) := by
  have hc0 : ¬lcd.active = false := by
    rw [ha]
    simp
  rw [SetPosition, if_neg hc0, if_neg hc1, if_pos ⟨hh, hbad⟩]

theorem showLoop_nil_skip (lcd : Lcd) (wire : Wire) (s e : Int)
    (hcond : ¬(s ≠ -1 ∧ e ≠ -1)) :
    showLoop lcd s e [] wire 0 = Except.error (GoPanic.indexOutOfRange 0 0) := by
  rw [showLoop, if_neg hcond]
  rfl

theorem showLoop_nil_of_setPos_ok (lcd : Lcd) (wire : Wire) (s e : Int)
    (hcond : s ≠ -1 ∧ e ≠ -1) (w' : Wire)
    (hsp : SetPosition lcd wire (((0 : Nat) : Int) + s) 0 = Except.ok (w', none)) :
    showLoop lcd s e [] wire 0 = Except.error (GoPanic.indexOutOfRange 0 0) := by
  rw [showLoop, if_pos hcond, hsp]
  rfl

theorem showLoop_nil_of_setPos_err (lcd : Lcd) (wire : Wire) (s e : Int)
    (hcond : s ≠ -1 ∧ e ≠ -1) (w' : Wire) (ge : GoErr)
    (hsp : SetPosition lcd wire (((0 : Nat) : Int) + s) 0 = Except.ok (w', some ge)) :
    showLoop lcd s e [] wire 0 = Except.ok (w', some ge) := by
  rw [showLoop, if_pos hcond, hsp]

/-- Witness for Claim C4: in-bounds and out-of-bounds calls on a 16x2. -/
theorem setPosition_validation_witness :
    (∃ wire', SetPosition lcd16 wireT 1 15 = Except.ok (wire', none)
      ∧ wire'.log.length = wireT.log.length + 6) ∧
    SetPosition lcd16 wireT 1 16
      = Except.ok (wireT, some (GoErr.cursorPosOutOfRange 16 15)) ∧
    SetPosition lcd16 wireT 2 0
      = Except.ok (wireT, some (GoErr.cursorLineOutOfRange 2 1)) := by
  have h := setPosition_validation lcd16 wireT 1 15 rfl (by decide) (fun _ => rfl)
  have h2 := setPosition_validation lcd16 wireT 1 16 rfl (by decide) (fun _ => rfl)
  have h3 := setPosition_validation lcd16 wireT 2 0 rfl (by decide) (fun _ => rfl)
  exact ⟨h.1 (by decide) (by decide) (by decide) (by decide),
    h2.2.1 (by decide),
    h3.2.2 (by decide) (by decide) (by decide)⟩

/-- Claim C10 (counterexample): with an active line range, the padding flag
and a supported geometry, `ShowMessage` of the empty string aborts inside
`splitText` indexing segment `-1` — it never reaches an access of element 0
of the segment list. -/
theorem showMessage_empty_cx :
    ShowMessage lcd16 wireT [] (SHOW_LINE_1 ||| SHOW_BLANK_PADDING)
      = Except.error (GoPanic.indexOutOfRange (-1) 0) :=
  rfl

/-- Claim C10 (amended): on every active session with a working transport,
`ShowMessage` of the empty string never succeeds cleanly: either the write
loop reads element 0 of the empty segment list (a panic), or `splitText`'s
padding step aborts indexing segment `-1`, or the first `SetPosition` of
the loop rejects the start line and the call returns its validation
error. -/
theorem showMessage_empty_never_ok (lcd : Lcd) (wire : Wire) (opts : Nat)
    (ha : lcd.active = true) (htr : ∀ n, wire.tr n = true) :
    ShowMessage lcd wire [] opts = Except.error (GoPanic.indexOutOfRange 0 0)
    ∨ ShowMessage lcd wire [] opts = Except.error (GoPanic.indexOutOfRange (-1) 0)
    ∨ ∃ w' ge, ShowMessage lcd wire [] opts = Except.ok (w', some ge) := by
  have hact : ¬lcd.active = false := by
    rw [ha]
    simp
  rcases splitTextCore_empty (getSize lcd).1 (getLineRange opts).1 (getLineRange opts).2 opts
    with hok | herr
  · have key : ShowMessage lcd wire [] opts
        = showLoop lcd (getLineRange opts).1 (getLineRange opts).2 [] wire 0 := by
      rw [ShowMessage, if_neg hact, splitText, hok]
    rcases getLineRange_cases opts with ⟨hs, he⟩ | ⟨hs0, hse, he3⟩
    · left
      rw [key]
      apply showLoop_nil_skip
      rw [hs]
      simp
    · have hcond : (getLineRange opts).1 ≠ -1 ∧ (getLineRange opts).2 ≠ -1 :=
        ⟨by omega, by omega⟩
      have hl4 : 0 ≤ (((0 : Nat) : Int) + (getLineRange opts).1)
          ∧ (((0 : Nat) : Int) + (getLineRange opts).1) < 4 := ⟨by omega, by omega⟩
      cases hty : lcd.lcdType with
      | LCD_UNKNOWN =>
        have hw1 : (getSize lcd).1 = -1 := by rw [getSize, hty]
        have hh1 : (getSize lcd).2 = -1 := by rw [getSize, hty]
        obtain ⟨w', hsp, _⟩ := setPosition_ok lcd wire.tr htr wire.idx wire.log
          (((0 : Nat) : Int) + (getLineRange opts).1) 0 ha (Or.inl hw1) (Or.inl hh1) hl4
        have hsp' : SetPosition lcd wire (((0 : Nat) : Int) + (getLineRange opts).1) 0
            = Except.ok (w', none) := hsp
        left
        rw [key]
        exact showLoop_nil_of_setPos_ok lcd wire _ _ hcond w' hsp'
      | LCD_16x2 =>
        have hw1 : (getSize lcd).1 = 16 := by rw [getSize, hty]
        have hh1 : (getSize lcd).2 = 2 := by rw [getSize, hty]
        by_cases hsh : (getLineRange opts).1 ≤ (getSize lcd).2 - 1
        · obtain ⟨w', hsp, _⟩ := setPosition_ok lcd wire.tr htr wire.idx wire.log
            (((0 : Nat) : Int) + (getLineRange opts).1) 0 ha
            (Or.inr ⟨by omega, by rw [hw1]; omega⟩)
            (Or.inr ⟨by omega, by omega⟩) hl4
          have hsp' : SetPosition lcd wire (((0 : Nat) : Int) + (getLineRange opts).1) 0
              = Except.ok (w', none) := hsp
          left
          rw [key]
          exact showLoop_nil_of_setPos_ok lcd wire _ _ hcond w' hsp'
        · right
          right
          refine ⟨wire, GoErr.cursorLineOutOfRange
            (((0 : Nat) : Int) + (getLineRange opts).1) ((getSize lcd).2 - 1), ?_⟩
          rw [key]
          apply showLoop_nil_of_setPos_err lcd wire _ _ hcond wire
          apply setPosition_lineErr lcd wire _ 0 ha
          · rw [hw1]
            intro hcon
            rcases hcon.2 with hx | hx <;> omega
          · rw [hh1]
            simp
          · right
            omega
      | LCD_20x4 =>
        have hw1 : (getSize lcd).1 = 20 := by rw [getSize, hty]
        have hh1 : (getSize lcd).2 = 4 := by rw [getSize, hty]
        obtain ⟨w', hsp, _⟩ := setPosition_ok lcd wire.tr htr wire.idx wire.log
          (((0 : Nat) : Int) + (getLineRange opts).1) 0 ha
          (Or.inr ⟨by omega, by rw [hw1]; omega⟩)
          (Or.inr ⟨by omega, by rw [hh1]; omega⟩) hl4
        have hsp' : SetPosition lcd wire (((0 : Nat) : Int) + (getLineRange opts).1) 0
            = Except.ok (w', none) := hsp
        left
        rw [key]
        exact showLoop_nil_of_setPos_ok lcd wire _ _ hcond w' hsp'
  · right
    left
    rw [ShowMessage, if_neg hact, splitText, herr]

/-- Witness for Claim C10: empty text with no line flags on a 16x2. -/
theorem showMessage_empty_never_ok_witness :
    ShowMessage lcd16 wireT [] SHOW_NO_OPTIONS
      = Except.error (GoPanic.indexOutOfRange 0 0)
    ∨ ShowMessage lcd16 wireT [] SHOW_NO_OPTIONS
      = Except.error (GoPanic.indexOutOfRange (-1) 0)
    ∨ ∃ w' ge, ShowMessage lcd16 wireT [] SHOW_NO_OPTIONS = Except.ok (w', some ge) :=
  showMessage_empty_never_ok lcd16 wireT SHOW_NO_OPTIONS rfl (fun _ => rfl)

end Hd44780
